import Mathlib

/-!
Verification development for `folly/experimental/fibers/Fiber.h`.

The repository provides only the class declaration (`Fiber.h`, 126 lines).
The data model below embeds everything the header fixes directly:

* the `State` enumeration (Fiber.h lines 54-62),
* the in-class initializer `state_{INVALID}` (line 64),
* `kUserBufferSize = 256` (line 111),
* the deleted copy constructor and copy assignment (lines 49-50),
* the `intptr_t` signature of `setData` / `preempt` / `data_`.

The member-function bodies (`Fiber.cpp`, `Fiber-inl.h`) are not part of the
repository snapshot, so the operations are modelled from the specification,
each marked `Modelled from the spec:` in its doc comment.
-/

namespace FollyFibers

/-- Fiber state enumeration, embedded from `Fiber.h` lines 54-62. -/
inductive State where
  | INVALID
  | NOT_STARTED
  | READY_TO_RUN
  | RUNNING
  | AWAITING
  | AWAITING_IMMEDIATE
deriving DecidableEq, Repr

/-- `kUserBufferSize`, embedded from `Fiber.h` line 111:
`static constexpr size_t kUserBufferSize = 256;`. -/
def kUserBufferSize : Nat := 256

/-- Smallest value of a 64-bit `intptr_t`. -/
def intptrMin : Int := -(2 ^ 63)

/-- Largest value of a 64-bit `intptr_t`. -/
def intptrMax : Int := 2 ^ 63 - 1

/-- `x` is representable as a 64-bit `intptr_t`. -/
def isIntptr (x : Int) : Prop := intptrMin ≤ x ∧ x ≤ intptrMax

instance (x : Int) : Decidable (isIntptr x) := by
  unfold isIntptr; infer_instance

/-- Shallow embedding of a `Fiber` object (`Fiber.h` lines 40-122).
`addr` models the object's address (identity); the callable members
`func_`, `readyFunc_`, `resultFunc_`, `finallyFunc_` are modelled by
optional identifiers; `userBuffer` models the bytes of `userBuffer_`;
`nextRemoteReady` models the `AtomicLinkedListHook` link pointer. -/
structure Fiber where
  addr : Nat
  state : State
  data : Int
  func : Option Nat
  readyFunc : Option Nat
  resultFunc : Option Nat
  finallyFunc : Option Nat
  userBuffer : List Nat
  nextRemoteReady : Option Nat
  threadId : Nat
deriving DecidableEq, Repr

/-- A freshly constructed Fiber: the in-class initializers of `Fiber.h`
give `state_{INVALID}` (line 64) and `threadId_{0}` (line 121); the other
members are default-constructed (empty callables, zeroed buffer). -/
def newFiber (addr : Nat) : Fiber :=
  ⟨addr, State.INVALID, 0, none, none, none, none,
    List.replicate kUserBufferSize 0, none, 0⟩

/-- The deleted copy constructor, `Fiber.h` line 49:
`Fiber(const Fiber&) = delete;` — there is no copy operation. -/
def copyConstructor : Option (Fiber → Fiber) := none

/-- The deleted copy assignment, `Fiber.h` line 50:
`Fiber& operator=(const Fiber&) = delete;` — there is no copy assignment. -/
def copyAssignment : Option (Fiber → Fiber → Fiber) := none

/-- Modelled from the spec: `Fiber::setData` (declared at `Fiber.h` line 47;
its definition is not in the snapshot). Stores the word-sized value into
`data_` unchanged, so the next return from `preempt()` observes it. -/
def Fiber.setData (f : Fiber) (d : Int) : Fiber := { f with data := d }

/-- Modelled from the spec: `Fiber::preempt` (declared at `Fiber.h`
lines 83-91; definition not in the snapshot). Callable only by code running
inside the Fiber's own context — the fiber must be `RUNNING` — and the
argument must not be `RUNNING`. A violated precondition is an assertion
failure, modelled as `none`; otherwise the new state is recorded and control
switches back to the resumer. -/
def Fiber.preempt (f : Fiber) (s : State) : Option Fiber :=
  if s = State.RUNNING then none
  else if f.state = State.RUNNING then some { f with state := s }
  else none

/-- Modelled from the spec: the resumer-side switch-in. A Fiber may be
resumed from `NOT_STARTED`, `READY_TO_RUN` or `AWAITING_IMMEDIATE`; the
resumer has already called `setData`, and the value handed back to the
Fiber's suspended `preempt()` call is exactly the stored `data_`. -/
def Fiber.triggerResume (f : Fiber) : Option (Fiber × Int) :=
  if f.state = State.NOT_STARTED ∨ f.state = State.READY_TO_RUN ∨
      f.state = State.AWAITING_IMMEDIATE then
    some ({ f with state := State.RUNNING }, f.data)
  else none

/-- Modelled from the spec: "setData then switch-in", the only path to
`RUNNING` from any suspended state. -/
def Fiber.resume (f : Fiber) (v : Int) : Option (Fiber × Int) :=
  (f.setData v).triggerResume

/-- Modelled from the spec: an external wake delivered while `AWAITING`
makes the Fiber `READY_TO_RUN`. -/
def Fiber.wake (f : Fiber) : Option Fiber :=
  if f.state = State.AWAITING then some { f with state := State.READY_TO_RUN }
  else none

/-- Modelled from the spec: `Fiber::setFunction` (declared at `Fiber.h`
line 72; `Fiber-inl.h` is not in the snapshot). Legal only while the state
is `INVALID` or `NOT_STARTED`; sets the task body and makes the Fiber
`NOT_STARTED`. A violated precondition is an assertion failure (`none`). -/
def Fiber.setFunction (f : Fiber) (fn : Nat) : Option Fiber :=
  if f.state = State.INVALID ∨ f.state = State.NOT_STARTED then
    some { f with func := some fn, state := State.NOT_STARTED }
  else none

/-- Modelled from the spec: `Fiber::setFunctionFinally` (declared at
`Fiber.h` line 75). Legal only while `INVALID` or `NOT_STARTED`; sets the
task body and the finally hook. -/
def Fiber.setFunctionFinally (f : Fiber) (fn gn : Nat) : Option Fiber :=
  if f.state = State.INVALID ∨ f.state = State.NOT_STARTED then
    some { f with resultFunc := some fn, finallyFunc := some gn,
                  state := State.NOT_STARTED }
  else none

/-- Modelled from the spec: `Fiber::setReadyFunction` (declared at
`Fiber.h` line 78). Legal only while `INVALID` or `NOT_STARTED`; sets the
hook the resumer runs just before switching into this Fiber. -/
def Fiber.setReadyFunction (f : Fiber) (gn : Nat) : Option Fiber :=
  if f.state = State.INVALID ∨ f.state = State.NOT_STARTED then
    some { f with readyFunc := some gn }
  else none

/-- Observable events of one task activation inside the entry trampoline. -/
inductive Event where
  | bodyStart
  | bodyReturn
  | bodyFault
  | finallyRun
  | switchOut (s : State)
deriving DecidableEq, Repr

/-- Modelled from the spec: the entry trampoline `Fiber::fiberFunc`
(declared at `Fiber.h` line 81; definition not in the snapshot). Runs the
task body under a failure boundary (a fault never escapes the trampoline),
then runs the finally hook exactly once when one is configured, then
performs the terminal switch back to the resumer, leaving the Fiber
`NOT_STARTED` for reuse or `INVALID` when retired, with the task reference
cleared. Returns the resulting Fiber together with the event trace.
`terminalState` gives the state the terminal switch records: `INVALID`
when the Manager retires the Fiber, `NOT_STARTED` when it is recycled. -/
def terminalState (retire : Bool) : State :=
  if retire then State.INVALID else State.NOT_STARTED

/-- Modelled from the spec: see `terminalState`; this is the trampoline
itself (`Fiber::fiberFunc`, `Fiber.h` line 81). -/
def Fiber.fiberFunc (f : Fiber) (bodyFaults retire : Bool) :
    Option (Fiber × List Event) :=
  if f.state = State.RUNNING then
    some ({ f with state := terminalState retire, func := none,
                   resultFunc := none },
      [Event.bodyStart] ++
      (if bodyFaults then [Event.bodyFault] else [Event.bodyReturn]) ++
      (if f.finallyFunc.isSome then [Event.finallyRun] else []) ++
      [Event.switchOut (terminalState retire)])
  else none

/-- The operations of the Fiber interface, as driven by the Manager, a
Baton, or the Fiber's own task. -/
inductive Op where
  | opConfigure (fn : Nat)
  | opConfigureFinally (fn gn : Nat)
  | opSetReady (gn : Nat)
  | opResume (v : Int)
  | opAwait
  | opAwaitImmediate
  | opWake
  | opComplete (bodyFaults retire : Bool)
deriving DecidableEq, Repr

/-- The operations that go through the transition primitive `preempt`
from inside the Fiber's own context: suspension via a Baton
(`AWAITING`), immediate preemption (`AWAITING_IMMEDIATE`), and the
trampoline's terminal switch on completion. -/
def Op.viaPreempt : Op → Bool
  | Op.opAwait => true
  | Op.opAwaitImmediate => true
  | Op.opComplete _ _ => true
  | _ => false

/-- One interface operation applied to a Fiber; `none` models an
assertion failure (fail fast). -/
def Fiber.step (f : Fiber) : Op → Option Fiber
  | Op.opConfigure fn => f.setFunction fn
  | Op.opConfigureFinally fn gn => f.setFunctionFinally fn gn
  | Op.opSetReady gn => f.setReadyFunction gn
  | Op.opResume v => (f.resume v).map Prod.fst
  | Op.opAwait => f.preempt State.AWAITING
  | Op.opAwaitImmediate => f.preempt State.AWAITING_IMMEDIATE
  | Op.opWake => f.wake
  | Op.opComplete b r => (f.fiberFunc b r).map Prod.fst

/-- A sequence of interface operations applied in order. -/
def Fiber.stepTrace (f : Fiber) : List Op → Option Fiber
  | [] => some f
  | op :: ops => (f.step op).bind fun g => g.stepTrace ops

/-- The transition table of the specification, §4.1. -/
def tableStep (s t : State) : Bool :=
  match s, t with
  | State.INVALID, State.NOT_STARTED => true
  | State.NOT_STARTED, State.RUNNING => true
  | State.READY_TO_RUN, State.RUNNING => true
  | State.AWAITING_IMMEDIATE, State.RUNNING => true
  | State.RUNNING, State.AWAITING => true
  | State.RUNNING, State.AWAITING_IMMEDIATE => true
  | State.AWAITING, State.READY_TO_RUN => true
  | State.RUNNING, State.NOT_STARTED => true
  | State.RUNNING, State.INVALID => true
  | _, _ => false

/-- The offset of the embedded `userBuffer_` member inside the `Fiber`
object; some fixed value determined by the object layout, constant for
every Fiber and every activation. -/
def userBufferOffset : Nat := 64

/-- Modelled from the spec: `Fiber::getUserBuffer` (declared at `Fiber.h`
line 114; definition not in the snapshot). Exposes the address of the
embedded scratch arena: a fixed offset from the object's own address. -/
def Fiber.getUserBuffer (f : Fiber) : Nat := f.addr + userBufferOffset

/-- Modelled from the spec: one atomic push onto the remote-ready
structure (`folly::AtomicLinkedList` via the hook `nextRemoteReady_`,
`Fiber.h` lines 106-109; the list implementation is not in the snapshot).
A producer atomically exchanges the head pointer: the pushed Fiber's link
is set to the previous head and the Fiber becomes the new head. Only the
link pointer of the pushed Fiber is written; no Fiber's `state` is
touched. Because each push is a single atomic exchange, any concurrent
execution by M producers linearizes to some sequential order of pushes,
which the model captures by quantifying over all push orders. -/
def remotePush (q : List Fiber) (f : Fiber) : List Fiber :=
  { f with nextRemoteReady := (q.head?).map Fiber.addr } :: q

/-- Pushes a list of Fibers one atomic push at a time, in the given
(linearized) order. -/
def remotePushAll (q : List Fiber) (fs : List Fiber) : List Fiber :=
  fs.foldl remotePush q

/-- Modelled from the spec: the single-consumer drain by the owning
thread, returning the enqueued Fibers (oldest first). -/
def remoteDrain (q : List Fiber) : List Fiber := q.reverse

/-- Identity-and-state projection used to compare queue contents with
what was pushed, ignoring the link pointer the push itself writes. -/
def idState (f : Fiber) : Nat × State := (f.addr, f.state)

/-- The Fiber `newFiber 0` right after its first configuration. -/
def cfgExample : Fiber :=
  { newFiber 0 with func := some 7, state := State.NOT_STARTED }

/-- A RUNNING Fiber with a task and a finally hook configured. -/
def runningExample : Fiber :=
  { newFiber 5 with state := State.RUNNING, resultFunc := some 8,
                    finallyFunc := some 9 }

/-- The Fiber `runningExample` after an activation whose body faulted
(trampoline outcome, not retired). -/
def faultResult : Fiber :=
  { runningExample with state := terminalState false, func := none,
                        resultFunc := none }

/-- The event trace of that faulting activation. -/
def faultTrace : List Event :=
  [Event.bodyStart, Event.bodyFault, Event.finallyRun,
    Event.switchOut (terminalState false)]

theorem remotePushAll_map_idState (fs : List Fiber) :
    ∀ q : List Fiber,
      (remotePushAll q fs).map idState =
        (fs.map idState).reverse ++ q.map idState := by
  induction fs with
  | nil => intro q; simp [remotePushAll]
  | cons f fs ih =>
    intro q
    have h : remotePushAll q (f :: fs) = remotePushAll (remotePush q f) fs := by
      simp [remotePushAll, List.foldl_cons]
    rw [h, ih]
    simp [remotePush, idState]

/-- Every interface operation leaves the object's address, its user
buffer contents, and its thread binding unchanged: operations mutate the
Fiber in place, never replace it. -/
theorem Fiber.step_preserves (f : Fiber) (op : Op) (f' : Fiber)
    (h : f.step op = some f') :
    f'.addr = f.addr ∧ f'.userBuffer = f.userBuffer := by
  rcases f with ⟨a, s, d, fn, rf, resf, ff, ub, nr, tid⟩
  cases op <;>
    simp only [Fiber.step, Fiber.setFunction, Fiber.setFunctionFinally,
      Fiber.setReadyFunction, Fiber.resume, Fiber.setData,
      Fiber.triggerResume, Fiber.preempt, Fiber.wake, Fiber.fiberFunc] at h <;>
    (try split at h) <;> (try split at h) <;>
    simp only [Option.map_some', Option.map_none', Option.some.injEq,
      reduceCtorEq] at h <;>
    (try subst h) <;> simp

/-- C1: the state field ranges over exactly the six enumerators of
`State` (`Fiber.h` lines 54-62); a freshly constructed Fiber is
`INVALID` (in-class initializer, `Fiber.h` line 64); and every state
change performed by any interface operation is an arc of the §4.1
transition table — no other transition is reachable. -/
theorem fiber_state_machine :
    (∀ a : Nat, (newFiber a).state = State.INVALID) ∧
    (∀ (f : Fiber) (op : Op) (f' : Fiber), f.step op = some f' →
      f'.state = f.state ∨ tableStep f.state f'.state = true) := by
  constructor
  · intro a; rfl
  · intro f op f' h
    rcases f with ⟨a, s, d, fn, rf, resf, ff, ub, nr, tid⟩
    cases op <;> cases s <;>
      simp only [Fiber.step, Fiber.setFunction, Fiber.setFunctionFinally,
        Fiber.setReadyFunction, Fiber.resume, Fiber.setData,
        Fiber.triggerResume, Fiber.preempt, Fiber.wake, Fiber.fiberFunc] at h <;>
      (try simp at h) <;> (try subst h) <;>
      (first
        | decide
        | (simp only [terminalState]
           split <;> decide)
        | simp_all [tableStep, terminalState])

/-- Closed instance of `fiber_state_machine`: a fresh Fiber is INVALID,
and configuring it is the table's INVALID → NOT_STARTED arc. -/
theorem fiber_state_machine_witness :
    (newFiber 0).state = State.INVALID ∧
    (cfgExample.state = (newFiber 0).state ∨
      tableStep (newFiber 0).state cfgExample.state = true) :=
  ⟨fiber_state_machine.1 0,
   fiber_state_machine.2 (newFiber 0) (Op.opConfigure 7) cfgExample rfl⟩

/-- C2: for every representable `intptr_t` value `x`, `setData x` on a
suspended Fiber followed by triggering its resume makes the value handed
to the Fiber's next return from `preempt()` exactly `x` — lossless, no
conversion or truncation. -/
theorem setData_resume_roundtrip (f : Fiber) (x : Int)
    (hx : isIntptr x)
    (hs : f.state = State.NOT_STARTED ∨ f.state = State.READY_TO_RUN ∨
      f.state = State.AWAITING_IMMEDIATE) :
    ((f.setData x).triggerResume).map Prod.snd = some x := by
  have hc : (f.setData x).state = State.NOT_STARTED ∨
      (f.setData x).state = State.READY_TO_RUN ∨
      (f.setData x).state = State.AWAITING_IMMEDIATE := hs
  have hr : (f.setData x).triggerResume =
      some ({ f.setData x with state := State.RUNNING },
        (f.setData x).data) := by
    unfold Fiber.triggerResume
    exact if_pos hc
  rw [hr]
  simp [Fiber.setData]

/-- Closed instances of `setData_resume_roundtrip` at zero, the minimum
and the maximum 64-bit word, on a READY_TO_RUN Fiber. -/
theorem setData_resume_roundtrip_witness :
    ((({ newFiber 3 with state := State.READY_TO_RUN } : Fiber).setData
        0).triggerResume).map Prod.snd = some 0 ∧
    ((({ newFiber 3 with state := State.READY_TO_RUN } : Fiber).setData
        intptrMin).triggerResume).map Prod.snd = some intptrMin ∧
    ((({ newFiber 3 with state := State.READY_TO_RUN } : Fiber).setData
        intptrMax).triggerResume).map Prod.snd = some intptrMax :=
  ⟨setData_resume_roundtrip _ 0 (by decide) (by decide),
   setData_resume_roundtrip _ intptrMin (by decide) (by decide),
   setData_resume_roundtrip _ intptrMax (by decide) (by decide)⟩

/-- C3: `preempt` asserts its precondition — the argument must not be
RUNNING and the caller must be inside this Fiber's context (the Fiber is
RUNNING) — failing fast (`none`) on any violation; under the
precondition it records the new state and switches back to the resumer;
and while RUNNING no interface operation other than the preempt-driven
ones (`opAwait`, `opAwaitImmediate`, the trampoline's terminal switch)
can succeed, so nothing else alters the state of a RUNNING Fiber. -/
theorem preempt_contract :
    (∀ (f : Fiber) (s : State), s = State.RUNNING → f.preempt s = none) ∧
    (∀ (f : Fiber) (s : State), f.state ≠ State.RUNNING →
      f.preempt s = none) ∧
    (∀ (f : Fiber) (s : State), s ≠ State.RUNNING →
      f.state = State.RUNNING → f.preempt s = some { f with state := s }) ∧
    (∀ (f : Fiber) (op : Op) (f' : Fiber), f.state = State.RUNNING →
      f.step op = some f' → Op.viaPreempt op = true) := by
  refine ⟨?_, ?_, ?_, ?_⟩
  · intro f s h; simp [Fiber.preempt, h]
  · intro f s h; simp [Fiber.preempt, h]
  · intro f s h1 h2; simp [Fiber.preempt, h1, h2]
  · intro f op f' hrun h
    rcases f with ⟨a, s, d, fn, rf, resf, ff, ub, nr, tid⟩
    simp only at hrun
    subst hrun
    cases op <;>
      first
        | rfl
        | (exfalso
           simp [Fiber.step, Fiber.setFunction, Fiber.setFunctionFinally,
             Fiber.setReadyFunction, Fiber.resume, Fiber.setData,
             Fiber.triggerResume, Fiber.wake] at h)

/-- Closed instance of `preempt_contract` on a concrete Fiber: a RUNNING
argument is rejected, a non-RUNNING caller is rejected, a legal await
suspends, and a resume attempt on a RUNNING Fiber fails fast. -/
theorem preempt_contract_witness :
    ({ newFiber 4 with state := State.RUNNING } : Fiber).preempt
        State.RUNNING = none ∧
    (newFiber 4).preempt State.AWAITING = none ∧
    ({ newFiber 4 with state := State.RUNNING } : Fiber).preempt
        State.AWAITING =
      some { newFiber 4 with state := State.AWAITING } ∧
    Op.viaPreempt Op.opAwait = true :=
  ⟨preempt_contract.1 _ State.RUNNING rfl,
   preempt_contract.2.1 (newFiber 4) State.AWAITING (by decide),
   preempt_contract.2.2.1 _ State.AWAITING (by decide) (by decide),
   preempt_contract.2.2.2 { newFiber 4 with state := State.RUNNING }
     Op.opAwait { newFiber 4 with state := State.AWAITING } rfl rfl⟩

/-- C4: when a finally hook is configured, each task activation runs it
exactly once — also when the task body faults — strictly after the task
body has finished and strictly before the terminal switch that makes the
Fiber eligible (NOT_STARTED or INVALID) for its next activation. -/
theorem finally_exactly_once (f f' : Fiber) (evs : List Event)
    (b r : Bool) (hfin : f.finallyFunc.isSome = true)
    (h : f.fiberFunc b r = some (f', evs)) :
    evs.count Event.finallyRun = 1 ∧
    (∃ i j k : Fin evs.length, i < j ∧ j < k ∧
      (evs.get i = Event.bodyReturn ∨ evs.get i = Event.bodyFault) ∧
      evs.get j = Event.finallyRun ∧
      evs.get k = Event.switchOut f'.state) ∧
    (f'.state = State.NOT_STARTED ∨ f'.state = State.INVALID) := by
  unfold Fiber.fiberFunc at h
  rw [hfin] at h
  split at h
  · simp only [Option.some.injEq, Prod.mk.injEq] at h
    obtain ⟨h1, h2⟩ := h
    subst h1
    subst h2
    cases b <;> cases r <;>
      simp only [Bool.false_eq_true, if_true, if_false, ite_true, ite_false,
        List.cons_append, List.nil_append, List.singleton_append] <;>
      refine ⟨by decide, ⟨⟨1, by decide⟩, ⟨2, by decide⟩, ⟨3, by decide⟩,
        by decide, by decide, by decide, by decide, ?_⟩, by simp [terminalState]⟩ <;>
      decide
  · exact absurd h (by simp)

/-- Closed instance of `finally_exactly_once`: a RUNNING Fiber with a
finally hook whose body faults still runs the hook exactly once. -/
theorem finally_exactly_once_witness :
    faultTrace.count Event.finallyRun = 1 ∧
    (∃ i j k : Fin faultTrace.length, i < j ∧ j < k ∧
      (faultTrace.get i = Event.bodyReturn ∨
        faultTrace.get i = Event.bodyFault) ∧
      faultTrace.get j = Event.finallyRun ∧
      faultTrace.get k = Event.switchOut faultResult.state) ∧
    (faultResult.state = State.NOT_STARTED ∨
      faultResult.state = State.INVALID) :=
  finally_exactly_once runningExample faultResult faultTrace true false
    rfl rfl

/-- C5: a faulting task body is contained by the entry trampoline: the
activation still completes (the trampoline never fails on a fault), the
finally hook still runs, the Fiber ends cleanly in NOT_STARTED or
INVALID, the event trace ends with the terminal switch back to the
resumer, and the fault event happens strictly inside the activation —
never after the switch back across the context-switch boundary. -/
theorem fault_contained (f : Fiber) (r : Bool)
    (hrun : f.state = State.RUNNING) :
    (∃ p, f.fiberFunc true r = some p) ∧
    (∀ (f' : Fiber) (evs : List Event), f.fiberFunc true r = some (f', evs) →
      (f'.state = State.NOT_STARTED ∨ f'.state = State.INVALID) ∧
      (f.finallyFunc.isSome = true → evs.count Event.finallyRun = 1) ∧
      evs.getLast? = some (Event.switchOut f'.state) ∧
      evs.count Event.bodyFault = 1 ∧
      (∀ i : Fin evs.length, evs.get i = Event.bodyFault →
        i.val + 1 < evs.length)) := by
  constructor
  · unfold Fiber.fiberFunc
    rw [if_pos hrun]
    exact ⟨_, rfl⟩
  · intro f' evs h
    unfold Fiber.fiberFunc at h
    rw [if_pos hrun] at h
    simp only [Option.some.injEq, Prod.mk.injEq] at h
    obtain ⟨h1, h2⟩ := h
    subst h1
    subst h2
    cases hf : f.finallyFunc.isSome <;> cases r <;>
      refine ⟨by simp [terminalState], ?_, ?_, by decide, by decide⟩ <;>
      simp_all [terminalState] <;> decide

/-- Closed instance of `fault_contained` at `runningExample`, whose body
faults and which is then recycled rather than retired. -/
theorem fault_contained_witness :
    (∃ p, runningExample.fiberFunc true false = some p) ∧
    (∀ (f' : Fiber) (evs : List Event),
      runningExample.fiberFunc true false = some (f', evs) →
      (f'.state = State.NOT_STARTED ∨ f'.state = State.INVALID) ∧
      (runningExample.finallyFunc.isSome = true →
        evs.count Event.finallyRun = 1) ∧
      evs.getLast? = some (Event.switchOut f'.state) ∧
      evs.count Event.bodyFault = 1 ∧
      (∀ i : Fin evs.length, evs.get i = Event.bodyFault →
        i.val + 1 < evs.length)) :=
  fault_contained runningExample false rfl

/-- C6: each configuration operation (`setFunction`,
`setFunctionFinally`, `setReadyFunction`) succeeds exactly when the
Fiber's state is INVALID or NOT_STARTED; on a RUNNING or suspended
(READY_TO_RUN, AWAITING, AWAITING_IMMEDIATE) Fiber every one of them
fails fast (`none`, the model of the assertion) instead of mutating
anything. -/
theorem configure_contract :
    ∀ (f : Fiber) (fn gn : Nat),
      ((f.setFunction fn).isSome ↔
        (f.state = State.INVALID ∨ f.state = State.NOT_STARTED)) ∧
      ((f.setFunctionFinally fn gn).isSome ↔
        (f.state = State.INVALID ∨ f.state = State.NOT_STARTED)) ∧
      ((f.setReadyFunction gn).isSome ↔
        (f.state = State.INVALID ∨ f.state = State.NOT_STARTED)) := by
  intro f fn gn
  refine ⟨?_, ?_, ?_⟩
  · unfold Fiber.setFunction
    split <;> simp_all
  · unfold Fiber.setFunctionFinally
    split <;> simp_all
  · unfold Fiber.setReadyFunction
    split <;> simp_all

/-- C7: pushing N distinct Fibers onto the remote-ready structure — in
any order, so under any interleaving of the linearized atomic pushes of
the M producing threads — and draining on the owning thread yields each
Fiber exactly once, with its `state` field untouched by the remote path:
the drain agrees with the pushed sequence on both identity and state,
members are counted once, non-members zero times. -/
theorem remote_ready_exactly_once (fs : List Fiber)
    (hnodup : (fs.map Fiber.addr).Nodup) :
    ((remoteDrain (remotePushAll [] fs)).map idState = fs.map idState) ∧
    (∀ a ∈ fs.map Fiber.addr,
      ((remoteDrain (remotePushAll [] fs)).map Fiber.addr).count a = 1) ∧
    (∀ a, a ∉ fs.map Fiber.addr →
      ((remoteDrain (remotePushAll [] fs)).map Fiber.addr).count a = 0) := by
  have hmap : (remoteDrain (remotePushAll [] fs)).map idState =
      fs.map idState := by
    unfold remoteDrain
    rw [List.map_reverse, remotePushAll_map_idState]
    simp
  have haddr : (remoteDrain (remotePushAll [] fs)).map Fiber.addr =
      fs.map Fiber.addr := by
    have h1 : ∀ l : List Fiber,
        l.map Fiber.addr = (l.map idState).map Prod.fst := by
      intro l; rw [List.map_map]; rfl
    rw [h1, h1, hmap]
  refine ⟨hmap, ?_, ?_⟩
  · intro a ha
    rw [haddr]
    exact List.count_eq_one_of_mem hnodup ha
  · intro a ha
    rw [haddr]
    exact List.count_eq_zero_of_not_mem ha

/-- Closed instance of `remote_ready_exactly_once` with two distinct
Fibers. -/
theorem remote_ready_exactly_once_witness :
    ((remoteDrain (remotePushAll [] [newFiber 1, newFiber 2])).map idState
      = [newFiber 1, newFiber 2].map idState) ∧
    (∀ a ∈ [newFiber 1, newFiber 2].map Fiber.addr,
      ((remoteDrain (remotePushAll [] [newFiber 1, newFiber 2])).map
        Fiber.addr).count a = 1) ∧
    (∀ a, a ∉ [newFiber 1, newFiber 2].map Fiber.addr →
      ((remoteDrain (remotePushAll [] [newFiber 1, newFiber 2])).map
        Fiber.addr).count a = 0) :=
  remote_ready_exactly_once [newFiber 1, newFiber 2] (by decide)

/-- C8: when a Fiber's task completes and the Fiber is recycled, it is
NOT_STARTED with its task reference cleared; configuring a second task
installs the new task; and the second activation's resume hands the
Fiber exactly the newly set resume value — independent of any `data_`
left over from the first task, so no residual resume value is
observable. -/
theorem reuse_is_clean (f : Fiber) (b : Bool) (fn2 : Nat) (v2 : Int)
    (hrun : f.state = State.RUNNING) :
    ∃ f1 evs, f.fiberFunc b false = some (f1, evs) ∧
      f1.state = State.NOT_STARTED ∧ f1.func = none ∧
      f1.resultFunc = none ∧
      ∃ f2, f1.setFunction fn2 = some f2 ∧ f2.func = some fn2 ∧
        f2.state = State.NOT_STARTED ∧
        ∃ f3, f2.resume v2 = some (f3, v2) ∧ f3.state = State.RUNNING := by
  refine ⟨{ f with state := State.NOT_STARTED, func := none, resultFunc := none },
    [Event.bodyStart] ++
      (if b then [Event.bodyFault] else [Event.bodyReturn]) ++
      (if f.finallyFunc.isSome then [Event.finallyRun] else []) ++
      [Event.switchOut (terminalState false)],
    ?_, rfl, rfl, rfl,
    { f with state := State.NOT_STARTED, func := some fn2, resultFunc := none },
    rfl, rfl, rfl,
    { f with state := State.RUNNING, func := some fn2, resultFunc := none, data := v2 },
    rfl, rfl⟩
  unfold Fiber.fiberFunc
  rw [if_pos hrun]
  rfl

/-- Closed instance of `reuse_is_clean`: `runningExample` finishes its
first task, takes task 11, and is resumed with the word 42. -/
theorem reuse_is_clean_witness :
    ∃ f1 evs, runningExample.fiberFunc false false = some (f1, evs) ∧
      f1.state = State.NOT_STARTED ∧ f1.func = none ∧
      f1.resultFunc = none ∧
      ∃ f2, f1.setFunction 11 = some f2 ∧ f2.func = some 11 ∧
        f2.state = State.NOT_STARTED ∧
        ∃ f3, f2.resume 42 = some (f3, 42) ∧ f3.state = State.RUNNING :=
  reuse_is_clean runningExample false 11 42 rfl

/-- C9: the scratch arena's capacity is the compile-time constant
`kUserBufferSize = 256` (`Fiber.h` line 111), identical for every Fiber;
`getUserBuffer` exposes the address of the arena embedded at a fixed
offset in the object; and no interface operation ever touches the
arena's contents or moves it — the Fiber never destroys arena contents
between activations. -/
theorem user_buffer_contract :
    kUserBufferSize = 256 ∧
    (∀ a : Nat, (newFiber a).userBuffer.length = kUserBufferSize ∧
      (newFiber a).getUserBuffer = a + userBufferOffset) ∧
    (∀ (f : Fiber) (op : Op) (f' : Fiber), f.step op = some f' →
      f'.getUserBuffer = f.getUserBuffer ∧
      f'.userBuffer = f.userBuffer) := by
  refine ⟨rfl, ?_, ?_⟩
  · intro a
    exact ⟨by simp [newFiber], rfl⟩
  · intro f op f' h
    obtain ⟨ha, hb⟩ := Fiber.step_preserves f op f' h
    exact ⟨by simp [Fiber.getUserBuffer, ha], hb⟩

/-- Closed instance of `user_buffer_contract`: the constant, a fresh
Fiber's arena, and preservation across a configuration step. -/
theorem user_buffer_contract_witness :
    kUserBufferSize = 256 ∧
    ((newFiber 0).userBuffer.length = kUserBufferSize ∧
      (newFiber 0).getUserBuffer = 0 + userBufferOffset) ∧
    (cfgExample.getUserBuffer = (newFiber 0).getUserBuffer ∧
      cfgExample.userBuffer = (newFiber 0).userBuffer) :=
  ⟨user_buffer_contract.1, user_buffer_contract.2.1 0,
   user_buffer_contract.2.2 (newFiber 0) (Op.opConfigure 7) cfgExample rfl⟩

/-- C10: the Fiber has no copy constructor and no copy assignment
(`Fiber.h` lines 49-50, both deleted), and every interface operation —
including whole operation traces and the remote-ready push that the
intrusive hooks rely on — preserves the object's address: a Fiber is a
unique, stable identity for its whole lifetime. -/
theorem no_copy_stable_identity :
    copyConstructor = none ∧ copyAssignment = none ∧
    (∀ (f : Fiber) (ops : List Op) (f' : Fiber),
      f.stepTrace ops = some f' → f'.addr = f.addr) ∧
    (∀ (q : List Fiber) (g : Fiber),
      (remotePush q g).map Fiber.addr = g.addr :: q.map Fiber.addr) := by
  refine ⟨rfl, rfl, ?_, ?_⟩
  · intro f ops
    induction ops generalizing f with
    | nil =>
      intro f' h
      simp only [Fiber.stepTrace, Option.some.injEq] at h
      rw [← h]
    | cons op ops ih =>
      intro f' h
      simp only [Fiber.stepTrace, Option.bind_eq_some] at h
      obtain ⟨g, hg, hrest⟩ := h
      rw [ih g f' hrest, (Fiber.step_preserves f op g hg).1]
  · intro q g
    simp [remotePush]

/-- Closed instance of `no_copy_stable_identity`: both copy operations
are absent, a configure-then-resume trace keeps the address, and a
remote push records the pushed Fiber's address at the head. -/
theorem no_copy_stable_identity_witness :
    copyConstructor = none ∧ copyAssignment = none ∧
    cfgExample.addr = (newFiber 0).addr ∧
    (remotePush [] (newFiber 1)).map Fiber.addr =
      (newFiber 1).addr :: ([] : List Fiber).map Fiber.addr :=
  ⟨no_copy_stable_identity.1, no_copy_stable_identity.2.1,
   no_copy_stable_identity.2.2.1 (newFiber 0) [Op.opConfigure 7]
     cfgExample rfl,
   no_copy_stable_identity.2.2.2 [] (newFiber 1)⟩

end FollyFibers
